import Mathlib

/-!
# rust/kernel/bindings_helper.h

The header is a flat translation unit: one licence comment, thirty-odd
`#include` directives, one line comment and two `const gfp_t` definitions.
The development below keeps the file as its literal lines (`source`), reads
them with a small line reader (`parseUnit`) into top-level items, and gives
the items a compile-time meaning (`compile`) relative to what the included
kernel headers put in scope (`Config`).
-/

set_option autoImplicit false

namespace BindingsHelper

/-! ## The file -/

/-- The lines of `rust/kernel/bindings_helper.h`, in file order. -/
def source : List String :=
  [ "/* SPDX-License-Identifier: GPL-2.0 */"
  , ""
  , "#include <linux/cdev.h>"
  , "#include <linux/clk.h>"
  , "#include <linux/errname.h>"
  , "#include <linux/fs.h>"
  , "#include <linux/blkdev.h>"
  , "#include <linux/magic.h>"
  , "#include <linux/time64.h>"
  , "#include <linux/fs_context.h>"
  , "#include <linux/fs_parser.h>"
  , "#include <linux/buffer_head.h>"
  , "#include <linux/module.h>"
  , "#include <linux/random.h>"
  , "#include <linux/slab.h>"
  , "#include <linux/sysctl.h>"
  , "#include <linux/uaccess.h>"
  , "#include <linux/uio.h>"
  , "#include <linux/miscdevice.h>"
  , "#include <linux/poll.h>"
  , "#include <linux/mm.h>"
  , "#include <linux/file.h>"
  , "#include <uapi/linux/android/binder.h>"
  , "#include <linux/platform_device.h>"
  , "#include <linux/of_platform.h>"
  , "#include <linux/security.h>"
  , "#include <asm/io.h>"
  , "#include <linux/irq.h>"
  , "#include <linux/interrupt.h>"
  , "#include <linux/irqdomain.h>"
  , "#include <linux/amba/bus.h>"
  , "#include <linux/gpio/driver.h>"
  , "#include <linux/iversion.h>"
  , "#include <linux/nls.h>"
  , ""
  , "// `bindgen` gets confused at certain things"
  , "const gfp_t BINDINGS_GFP_KERNEL = GFP_KERNEL;"
  , "const gfp_t BINDINGS___GFP_ZERO = __GFP_ZERO;"
  ]

/-! ## Top-level items of a translation unit -/

/-- One top-level line of a C translation unit, as far as this header needs
them told apart.  Anything the reader does not recognise is kept verbatim as
`directive` (a preprocessor line other than `#include`, e.g. `#define`) or
`other` (any other declaration: a function, a typedef, a struct, ...). -/
inductive Item where
  | blank
  | comment (text : String)
  | includeDir (header : String)
  | directive (text : String)
  | objectDef (isConst : Bool) (ty name init : String)
  | other (text : String)
  deriving DecidableEq, Repr

/-- Blank or tab. -/
def isSpace (c : Char) : Bool := c = ' ' || c = Char.ofNat 9

/-- Remove leading white space. -/
def trimLeft (cs : List Char) : List Char := cs.dropWhile isSpace

/-- Remove white space at both ends. -/
def trim (cs : List Char) : List Char :=
  (trimLeft (trimLeft cs).reverse).reverse

/-- The rest of `s` after the literal `p`, when `s` starts with `p`. -/
def dropLead : List Char → List Char → Option (List Char)
  | [], s => some s
  | _ :: _, [] => none
  | p :: ps, c :: cs => if p = c then dropLead ps cs else none

/-- The text before the closing `stop`, when `stop` occurs exactly once and
as the last character. -/
def untilLast (stop : Char) : List Char → Option (List Char)
  | [] => none
  | [c] => if c = stop then some [] else none
  | c :: d :: cs =>
    if c = stop then none else (untilLast stop (d :: cs)).map (c :: ·)

/-- The text of a block comment up to its terminator, when the first
terminator is also the end of the line. -/
def blockBody : List Char → Option (List Char)
  | [] => none
  | [_] => none
  | c :: d :: cs =>
    if c = '*' && d = '/' then (if cs.isEmpty then some [] else none)
    else (blockBody (d :: cs)).map (c :: ·)

/-- Split at white space, dropping empty pieces. -/
def splitWs (cs : List Char) : List (List Char) :=
  (cs.splitOnP isSpace).filter (fun w => !w.isEmpty)

/-- A C identifier: a letter or underscore, then letters, digits, underscores. -/
def isIdent : List Char → Bool
  | [] => false
  | c :: cs =>
    (c.isAlpha || c = '_') && cs.all (fun d => d.isAlphanum || d = '_')

/-- Read a declaration line `[const] T N = E;` whose initialiser is one
identifier; every other declaration is left unclassified. -/
def readDecl (line : List Char) : Item :=
  match untilLast ';' line with
  | none => .other (String.mk line)
  | some body =>
    match splitWs body with
    | [q, t, n, e, i] =>
      if q = "const".data && isIdent t && isIdent n && e = "=".data && isIdent i
          && t ≠ "const".data
      then .objectDef true (String.mk t) (String.mk n) (String.mk i)
      else .other (String.mk line)
    | [t, n, e, i] =>
      if isIdent t && isIdent n && e = "=".data && isIdent i
          && t ≠ "const".data && t ≠ "typedef".data
      then .objectDef false (String.mk t) (String.mk n) (String.mk i)
      else .other (String.mk line)
    | _ => .other (String.mk line)

/-- Read a preprocessor line (the text after `#`). -/
def readDirective (line rest : List Char) : Item :=
  match dropLead "include".data (trimLeft rest) with
  | none => .directive (String.mk line)
  | some arg =>
    match trimLeft arg with
    | '<' :: path =>
      match untilLast '>' path with
      | some p => .includeDir (String.mk p)
      | none => .directive (String.mk line)
    | '"' :: path =>
      match untilLast '"' path with
      | some p => .includeDir (String.mk p)
      | none => .directive (String.mk line)
    | _ => .directive (String.mk line)

/-- Classify one line of the file. -/
def readLine (raw : String) : Item :=
  let line := trim raw.data
  match line with
  | [] => .blank
  | '#' :: rest => readDirective line rest
  | '/' :: '/' :: text => .comment (String.mk text)
  | '/' :: '*' :: text =>
    match blockBody text with
    | some body => .comment (String.mk body)
    | none => .other (String.mk line)
  | _ => readDecl line

/-- Read a whole file, line by line. -/
def parseUnit (lines : List String) : List Item := lines.map readLine

/-- The items of `bindings_helper.h` (what `parseUnit source` yields). -/
def bindings_helper : List Item :=
  [ .comment " SPDX-License-Identifier: GPL-2.0 "
  , .blank
  , .includeDir "linux/cdev.h"
  , .includeDir "linux/clk.h"
  , .includeDir "linux/errname.h"
  , .includeDir "linux/fs.h"
  , .includeDir "linux/blkdev.h"
  , .includeDir "linux/magic.h"
  , .includeDir "linux/time64.h"
  , .includeDir "linux/fs_context.h"
  , .includeDir "linux/fs_parser.h"
  , .includeDir "linux/buffer_head.h"
  , .includeDir "linux/module.h"
  , .includeDir "linux/random.h"
  , .includeDir "linux/slab.h"
  , .includeDir "linux/sysctl.h"
  , .includeDir "linux/uaccess.h"
  , .includeDir "linux/uio.h"
  , .includeDir "linux/miscdevice.h"
  , .includeDir "linux/poll.h"
  , .includeDir "linux/mm.h"
  , .includeDir "linux/file.h"
  , .includeDir "uapi/linux/android/binder.h"
  , .includeDir "linux/platform_device.h"
  , .includeDir "linux/of_platform.h"
  , .includeDir "linux/security.h"
  , .includeDir "asm/io.h"
  , .includeDir "linux/irq.h"
  , .includeDir "linux/interrupt.h"
  , .includeDir "linux/irqdomain.h"
  , .includeDir "linux/amba/bus.h"
  , .includeDir "linux/gpio/driver.h"
  , .includeDir "linux/iversion.h"
  , .includeDir "linux/nls.h"
  , .blank
  , .comment " `bindgen` gets confused at certain things"
  , .objectDef true "gfp_t" "BINDINGS_GFP_KERNEL" "GFP_KERNEL"
  , .objectDef true "gfp_t" "BINDINGS___GFP_ZERO" "__GFP_ZERO"
  ]

/-- The headers named by the `#include` directives, in file order. -/
def includesOf (items : List Item) : List String :=
  items.filterMap fun
    | .includeDir h => some h
    | _ => none

/-- The object definitions `(const?, type, name, initialiser)`, in file order. -/
def objectDefs (items : List Item) : List (Bool × String × String × String) :=
  items.filterMap fun
    | .objectDef q t n e => some (q, t, n, e)
    | _ => none

/-- Comments and blank lines: what translation phase 3 turns into white space. -/
def Item.isLayout : Item → Bool
  | .blank => true
  | .comment _ => true
  | _ => false

/-- The items left once comments and blank lines are gone. -/
def content (items : List Item) : List Item := items.filter (fun it => !it.isLayout)

/-- Whether the item is an `#include` directive. -/
def Item.isInclude : Item → Bool
  | .includeDir _ => true
  | _ => false

/-- Whether the item defines an object. -/
def Item.isObjectDef : Item → Bool
  | .objectDef _ _ _ _ => true
  | _ => false

/-! ## Integer types -/

/-- An integer type of the target: its width and signedness. -/
structure IntTy where
  bits : Nat
  signed : Bool
  deriving DecidableEq, Repr

/-- Smallest value of the type. -/
def IntTy.lo (τ : IntTy) : Int := if τ.signed then -(2 ^ (τ.bits - 1) : Int) else 0

/-- One more than the largest value of the type. -/
def IntTy.hi (τ : IntTy) : Int := if τ.signed then 2 ^ (τ.bits - 1) else 2 ^ τ.bits

/-- Whether `v` is a value of the type. -/
def IntTy.inRange (τ : IntTy) (v : Int) : Bool := decide (τ.lo ≤ v) && decide (v < τ.hi)

/-- Conversion of an integer value to the type: reduction modulo the number
of values of the type, into the range of the type. -/
def IntTy.convert (τ : IntTy) (v : Int) : Int := (v - τ.lo) % (τ.hi - τ.lo) + τ.lo

/-! ## What the included headers provide -/

/-- An integer constant expression after expansion: its type name and value. -/
structure Const where
  ty : String
  val : Int
  deriving DecidableEq, Repr

/-- The scope at the end of the include list.  The kernel headers are not
part of this file, so what they declare is a parameter: the integer typedefs
in scope and the object-like defines that expand to integer constants. -/
structure Config where
  typedefs : List (String × IntTy)
  defines : List (String × Const)

/-- Modelled from the spec: the definitions of `gfp_t`, `GFP_KERNEL` and
`__GFP_ZERO` live in kernel headers outside this file.  The spec says the two
constants have "the same type as their source macros", so a source define is
taken to be a constant of type `gfp_t` (an integer typedef of some width and
signedness) whose value is a value of that type.  The result is the value the
define `name` expands to, when `name` is such a constant. -/
def Config.gfpConst (cfg : Config) (name : String) : Option Int :=
  match cfg.typedefs.lookup "gfp_t", cfg.defines.lookup name with
  | some τ, some c => if c.ty = "gfp_t" && τ.inRange c.val then some c.val else none
  | _, _ => none

/-- A configuration for illustration: `gfp_t` is a 32-bit unsigned integer,
`GFP_KERNEL` is `0xcc0` and `__GFP_ZERO` is `0x100`. -/
def Config.sample : Config :=
  { typedefs := [("gfp_t", ⟨32, false⟩)]
    defines := [("__GFP_ZERO", ⟨"gfp_t", 0x100⟩), ("GFP_KERNEL", ⟨"gfp_t", 0xcc0⟩)] }

/-! ## Compiling the translation unit -/

/-- An object with static storage defined by the unit. -/
structure Obj where
  name : String
  ty : String
  isConst : Bool
  val : Int
  deriving DecidableEq, Repr

/-- Why a unit is rejected. -/
inductive CompileError where
  | unknownType (ty : String)
  | undeclared (ident : String)
  | redefined (name : String)
  | unsupported (text : String)
  deriving DecidableEq, Repr

/-- Headers processed and objects defined so far. -/
structure State where
  included : List String
  objects : List Obj
  deriving DecidableEq, Repr

/-- Elaborate `[const] ty name = init;`: `ty` must be a typedef in scope,
`init` a define in scope, `name` fresh; the object holds the value of `init`
converted to `ty`. -/
def defineObject (cfg : Config) (st : State) (isConst : Bool) (ty name init : String) :
    Except CompileError State :=
  match cfg.typedefs.lookup ty with
  | none => .error (.unknownType ty)
  | some τ =>
    match cfg.defines.lookup init with
    | none => .error (.undeclared init)
    | some c =>
      if st.objects.any (fun o => o.name == name) then .error (.redefined name)
      else .ok { st with objects := st.objects ++ [⟨name, ty, isConst, τ.convert c.val⟩] }

/-- Process one item. -/
def step (cfg : Config) (st : State) : Item → Except CompileError State
  | .blank => .ok st
  | .comment _ => .ok st
  | .includeDir h => .ok { st with included := st.included ++ [h] }
  | .directive t => .error (.unsupported t)
  | .objectDef q ty name init => defineObject cfg st q ty name init
  | .other t => .error (.unsupported t)

/-- Process the items in order, stopping at the first error. -/
def compileFrom (cfg : Config) : State → List Item → Except CompileError State
  | st, [] => .ok st
  | st, it :: rest =>
    match step cfg st it with
    | .error e => .error e
    | .ok st1 => compileFrom cfg st1 rest

/-- Compile a file given as its lines. -/
def compile (cfg : Config) (lines : List String) : Except CompileError State :=
  compileFrom cfg ⟨[], []⟩ (parseUnit lines)

/-- The object called `name`, if the unit defines one. -/
def State.find (st : State) (name : String) : Option Obj :=
  st.objects.find? (fun o => o.name == name)

/-- The exported object `name` once the file is compiled: an error if the
file is rejected, `none` if it defines no such object. -/
def exported (cfg : Config) (lines : List String) (name : String) :
    Except CompileError (Option Obj) :=
  match compile cfg lines with
  | .error e => .error e
  | .ok st => .ok (st.find name)

/-- The value the exported object `name` holds once the file is compiled. -/
def exportedValue (cfg : Config) (lines : List String) (name : String) :
    Except CompileError (Option Int) :=
  match exported cfg lines name with
  | .error e => .error e
  | .ok o => .ok (o.map Obj.val)

/-- The identifier that initialises the object `name`, if the unit defines it. -/
def initialiserOf (items : List Item) (name : String) : Option String :=
  ((objectDefs items).find? (fun d => d.2.2.1 == name)).map (fun d => d.2.2.2)

/-- Checks that no `#include` follows the first object definition. -/
def includesFirst : List Item → Bool
  | [] => true
  | it :: rest =>
    if it.isObjectDef then rest.all (fun x => !x.isInclude) else includesFirst rest

/-! ## Reading the file -/

theorem parseUnit_source : parseUnit source = bindings_helper := by
  decide

/-- The file has thirty-two `#include` directives. -/
theorem includesOf_source_length : (includesOf (parseUnit source)).length = 32 := by
  rw [parseUnit_source]
  decide

/-! ## Conversions -/

theorem IntTy.convert_of_inRange (τ : IntTy) (v : Int) (h : τ.inRange v = true) :
    τ.convert v = v := by
  unfold IntTy.inRange at h
  simp only [Bool.and_eq_true, decide_eq_true_eq] at h
  unfold IntTy.convert
  rw [Int.emod_eq_of_lt (by omega) (by omega)]
  omega

theorem Config.gfpConst_eq_some {cfg : Config} {name : String} {v : Int}
    (h : cfg.gfpConst name = some v) :
    ∃ τ, cfg.typedefs.lookup "gfp_t" = some τ ∧
      cfg.defines.lookup name = some ⟨"gfp_t", v⟩ ∧ τ.inRange v = true := by
  unfold Config.gfpConst at h
  split at h
  · rename_i τ c hτ hc
    split at h
    · rename_i hcond
      simp only [Bool.and_eq_true, decide_eq_true_eq] at hcond
      obtain ⟨cty, cval⟩ := c
      simp only [Option.some.injEq] at h
      simp only at hcond
      subst h
      obtain ⟨h1, h2⟩ := hcond
      subst h1
      exact ⟨τ, hτ, hc, h2⟩
    · cases h
  · cases h

/-! ## Compiling the header -/

/-- What compiling the header yields in a scope where `gfp_t` is an integer
typedef and the two defines expand to integer constants: each object holds
the value of its define converted to `gfp_t`. -/
theorem compile_source_of_scope {cfg : Config} {τ : IntTy} {ck cz : Const}
    (hτ : cfg.typedefs.lookup "gfp_t" = some τ)
    (hk : cfg.defines.lookup "GFP_KERNEL" = some ck)
    (hz : cfg.defines.lookup "__GFP_ZERO" = some cz) :
    compile cfg source = .ok
      { included := includesOf bindings_helper
        objects := [⟨"BINDINGS_GFP_KERNEL", "gfp_t", true, τ.convert ck.val⟩,
                    ⟨"BINDINGS___GFP_ZERO", "gfp_t", true, τ.convert cz.val⟩] } := by
  unfold compile
  rw [parseUnit_source]
  simp [bindings_helper, compileFrom, step, defineObject, hτ, hk, hz, includesOf]

theorem exported_source_of_scope {cfg : Config} {τ : IntTy} {ck cz : Const}
    (hτ : cfg.typedefs.lookup "gfp_t" = some τ)
    (hk : cfg.defines.lookup "GFP_KERNEL" = some ck)
    (hz : cfg.defines.lookup "__GFP_ZERO" = some cz) :
    exported cfg source "BINDINGS_GFP_KERNEL"
        = .ok (some ⟨"BINDINGS_GFP_KERNEL", "gfp_t", true, τ.convert ck.val⟩) ∧
      exported cfg source "BINDINGS___GFP_ZERO"
        = .ok (some ⟨"BINDINGS___GFP_ZERO", "gfp_t", true, τ.convert cz.val⟩) := by
  unfold exported
  rw [compile_source_of_scope hτ hk hz]
  constructor <;> simp [State.find, List.find?]

/-- What compiling the header yields whenever the two source defines are
constants of type `gfp_t`. -/
theorem exported_source {cfg : Config} {k z : Int}
    (hK : cfg.gfpConst "GFP_KERNEL" = some k) (hZ : cfg.gfpConst "__GFP_ZERO" = some z) :
    exported cfg source "BINDINGS_GFP_KERNEL"
        = .ok (some ⟨"BINDINGS_GFP_KERNEL", "gfp_t", true, k⟩) ∧
      exported cfg source "BINDINGS___GFP_ZERO"
        = .ok (some ⟨"BINDINGS___GFP_ZERO", "gfp_t", true, z⟩) := by
  obtain ⟨τ, hτ, hk, hkr⟩ := Config.gfpConst_eq_some hK
  obtain ⟨τ2, hτ2, hz, hzr⟩ := Config.gfpConst_eq_some hZ
  rw [hτ] at hτ2
  cases hτ2
  have h := exported_source_of_scope hτ hk hz
  simp only [IntTy.convert_of_inRange τ k hkr, IntTy.convert_of_inRange τ z hzr] at h
  exact h

/-- Every successful run has processed exactly the headers of the include
list, in order. -/
theorem compileFrom_included (cfg : Config) :
    ∀ (items : List Item) (st st1 : State), compileFrom cfg st items = .ok st1 →
      st1.included = st.included ++ includesOf items := by
  intro items
  induction items with
  | nil =>
    intro st st1 h
    simp [compileFrom] at h
    simp [includesOf, h]
  | cons it rest ih =>
    intro st st1 h
    unfold compileFrom at h
    split at h
    · cases h
    · rename_i st2 hstep
      have h2 := ih st2 st1 h
      cases it with
      | blank => simp [step] at hstep; subst hstep; simpa [includesOf] using h2
      | comment t => simp [step] at hstep; subst hstep; simpa [includesOf] using h2
      | includeDir hd =>
        simp [step] at hstep; subst hstep; simpa [includesOf] using h2
      | directive t => simp [step] at hstep
      | other t => simp [step] at hstep
      | objectDef q ty n e =>
        simp only [step, defineObject] at hstep
        split at hstep
        · cases hstep
        · split at hstep
          · cases hstep
          · split at hstep
            · cases hstep
            · cases hstep
              simpa [includesOf] using h2

/-! ## Order of the items -/

/-- The header an item contributes to the include list. -/
theorem includesOf_cons (x : Item) (l : List Item) :
    includesOf (x :: l) = includesOf [x] ++ includesOf l := by
  cases x <;> simp [includesOf]

theorem includesOf_single_of_objectDef (x : Item) (h : x.isObjectDef = true) :
    includesOf [x] = [] := by
  cases x <;> simp_all [includesOf, Item.isObjectDef]

theorem includesOf_eq_nil_of_all (l : List Item)
    (h : l.all (fun x => !x.isInclude) = true) : includesOf l = [] := by
  induction l with
  | nil => rfl
  | cons x rest ih =>
    simp only [List.all_cons, Bool.and_eq_true] at h
    rw [includesOf_cons, ih h.2]
    obtain ⟨h1, _⟩ := h
    cases x <;> simp_all [includesOf, Item.isInclude]

theorem includesOf_of_includesFirst :
    ∀ (items : List Item), includesFirst items = true →
      ∀ (pre : List Item) (it : Item) (post : List Item), items = pre ++ it :: post →
        it.isObjectDef = true → includesOf pre = includesOf items := by
  intro items
  induction items with
  | nil => intro _ pre it post h; simp at h
  | cons x rest ih =>
    intro hf pre it post hsplit hobj
    cases pre with
    | nil =>
      simp only [List.nil_append, List.cons.injEq] at hsplit
      obtain ⟨hx, -⟩ := hsplit
      subst hx
      simp only [includesFirst, hobj, if_true] at hf
      rw [includesOf_cons, includesOf_eq_nil_of_all rest hf,
        includesOf_single_of_objectDef x hobj]
      rfl
    | cons y pre1 =>
      simp only [List.cons_append, List.cons.injEq] at hsplit
      obtain ⟨hx, hrest⟩ := hsplit
      subst hx
      rw [includesOf_cons x pre1, includesOf_cons x rest]
      congr 1
      by_cases hxo : x.isObjectDef = true
      · simp only [includesFirst, hxo, if_true] at hf
        rw [includesOf_eq_nil_of_all rest hf]
        apply includesOf_eq_nil_of_all
        rw [hrest] at hf
        simp only [List.all_append, Bool.and_eq_true] at hf
        exact hf.1
      · simp only [includesFirst, hxo] at hf
        exact ih (by simpa using hf) pre1 it post hrest hobj

/-! ## The exported constants -/

/-- C1: in every configuration in which `gfp_t` is an integer typedef and
`GFP_KERNEL` and `__GFP_ZERO` expand to integer constants, whatever value `k`
of type `gfp_t` the define `GFP_KERNEL` expands to, the object
`BINDINGS_GFP_KERNEL` is initialised from the identifier `GFP_KERNEL` and
holds exactly `k`. -/
theorem BINDINGS_GFP_KERNEL_holds_GFP_KERNEL (cfg : Config) (τ : IntTy) (ty : String)
    (k : Int) (cz : Const)
    (hτ : cfg.typedefs.lookup "gfp_t" = some τ)
    (hK : cfg.defines.lookup "GFP_KERNEL" = some ⟨ty, k⟩)
    (hZ : cfg.defines.lookup "__GFP_ZERO" = some cz)
    (hk : τ.inRange k = true) :
    initialiserOf (parseUnit source) "BINDINGS_GFP_KERNEL" = some "GFP_KERNEL" ∧
      exportedValue cfg source "BINDINGS_GFP_KERNEL" = .ok (some k) := by
  refine ⟨by rw [parseUnit_source]; decide, ?_⟩
  unfold exportedValue
  rw [(exported_source_of_scope hτ hK hZ).1]
  simp only [Option.map_some', IntTy.convert_of_inRange τ k hk]

theorem BINDINGS_GFP_KERNEL_holds_GFP_KERNEL_witness :
    Config.sample.typedefs.lookup "gfp_t" = some ⟨32, false⟩ ∧
      Config.sample.defines.lookup "GFP_KERNEL" = some ⟨"gfp_t", 0xcc0⟩ ∧
      Config.sample.defines.lookup "__GFP_ZERO" = some ⟨"gfp_t", 0x100⟩ ∧
      IntTy.inRange ⟨32, false⟩ 0xcc0 = true ∧
      exportedValue Config.sample source "BINDINGS_GFP_KERNEL" = .ok (some 0xcc0) :=
  ⟨by decide, by decide, by decide, by decide,
    (BINDINGS_GFP_KERNEL_holds_GFP_KERNEL Config.sample ⟨32, false⟩ "gfp_t" 0xcc0
      ⟨"gfp_t", 0x100⟩ (by decide) (by decide) (by decide) (by decide)).2⟩

/-- C2: in every configuration in which `gfp_t` is an integer typedef and
`GFP_KERNEL` and `__GFP_ZERO` expand to integer constants, whatever value `z`
of type `gfp_t` the define `__GFP_ZERO` expands to (and whatever `GFP_KERNEL`
expands to), the object `BINDINGS___GFP_ZERO` is initialised from the
identifier `__GFP_ZERO` and holds exactly `z`. -/
theorem BINDINGS___GFP_ZERO_holds___GFP_ZERO (cfg : Config) (τ : IntTy) (ty : String)
    (z : Int) (ck : Const)
    (hτ : cfg.typedefs.lookup "gfp_t" = some τ)
    (hK : cfg.defines.lookup "GFP_KERNEL" = some ck)
    (hZ : cfg.defines.lookup "__GFP_ZERO" = some ⟨ty, z⟩)
    (hz : τ.inRange z = true) :
    initialiserOf (parseUnit source) "BINDINGS___GFP_ZERO" = some "__GFP_ZERO" ∧
      exportedValue cfg source "BINDINGS___GFP_ZERO" = .ok (some z) := by
  refine ⟨by rw [parseUnit_source]; decide, ?_⟩
  unfold exportedValue
  rw [(exported_source_of_scope hτ hK hZ).2]
  simp only [Option.map_some', IntTy.convert_of_inRange τ z hz]

theorem BINDINGS___GFP_ZERO_holds___GFP_ZERO_witness :
    Config.sample.typedefs.lookup "gfp_t" = some ⟨32, false⟩ ∧
      Config.sample.defines.lookup "GFP_KERNEL" = some ⟨"gfp_t", 0xcc0⟩ ∧
      Config.sample.defines.lookup "__GFP_ZERO" = some ⟨"gfp_t", 0x100⟩ ∧
      IntTy.inRange ⟨32, false⟩ 0x100 = true ∧
      exportedValue Config.sample source "BINDINGS___GFP_ZERO" = .ok (some 0x100) :=
  ⟨by decide, by decide, by decide, by decide,
    (BINDINGS___GFP_ZERO_holds___GFP_ZERO Config.sample ⟨32, false⟩ "gfp_t" 0x100
      ⟨"gfp_t", 0xcc0⟩ (by decide) (by decide) (by decide) (by decide)).2⟩

/-- C3: the file's object definitions are exactly `const gfp_t
BINDINGS_GFP_KERNEL = GFP_KERNEL;` and `const gfp_t BINDINGS___GFP_ZERO =
__GFP_ZERO;`, each const-qualified, of type `gfp_t` and initialised by one bare
identifier; and whenever the two defines are constants of type `gfp_t`, each
compiled object is const, has the type of its define, and the conversion to
`gfp_t` applied by the initialisation leaves the value unchanged, whatever
width and signedness `gfp_t` has. -/
theorem consts_typed_as_their_defines (cfg : Config) (k z : Int)
    (hK : cfg.gfpConst "GFP_KERNEL" = some k) (hZ : cfg.gfpConst "__GFP_ZERO" = some z) :
    objectDefs (parseUnit source)
        = [(true, "gfp_t", "BINDINGS_GFP_KERNEL", "GFP_KERNEL"),
           (true, "gfp_t", "BINDINGS___GFP_ZERO", "__GFP_ZERO")] ∧
      exported cfg source "BINDINGS_GFP_KERNEL"
        = .ok (some ⟨"BINDINGS_GFP_KERNEL", "gfp_t", true, k⟩) ∧
      exported cfg source "BINDINGS___GFP_ZERO"
        = .ok (some ⟨"BINDINGS___GFP_ZERO", "gfp_t", true, z⟩) ∧
      (cfg.defines.lookup "GFP_KERNEL").map Const.ty = some "gfp_t" ∧
      (cfg.defines.lookup "__GFP_ZERO").map Const.ty = some "gfp_t" ∧
      ∃ τ, cfg.typedefs.lookup "gfp_t" = some τ ∧ τ.convert k = k ∧ τ.convert z = z := by
  obtain ⟨τ, hτ, hk, hkr⟩ := Config.gfpConst_eq_some hK
  obtain ⟨τ2, hτ2, hz, hzr⟩ := Config.gfpConst_eq_some hZ
  rw [hτ] at hτ2
  cases hτ2
  refine ⟨by rw [parseUnit_source]; decide, (exported_source hK hZ).1,
    (exported_source hK hZ).2, by rw [hk]; rfl, by rw [hz]; rfl, τ, hτ, ?_, ?_⟩
  · exact IntTy.convert_of_inRange τ k hkr
  · exact IntTy.convert_of_inRange τ z hzr

theorem consts_typed_as_their_defines_witness :
    Config.sample.gfpConst "GFP_KERNEL" = some 0xcc0 ∧
      Config.sample.gfpConst "__GFP_ZERO" = some 0x100 ∧
      exported Config.sample source "BINDINGS_GFP_KERNEL"
        = .ok (some ⟨"BINDINGS_GFP_KERNEL", "gfp_t", true, 0xcc0⟩) ∧
      exported Config.sample source "BINDINGS___GFP_ZERO"
        = .ok (some ⟨"BINDINGS___GFP_ZERO", "gfp_t", true, 0x100⟩) :=
  ⟨by decide, by decide,
    (consts_typed_as_their_defines Config.sample 0xcc0 0x100 (by decide) (by decide)).2.1,
    (consts_typed_as_their_defines Config.sample 0xcc0 0x100 (by decide) (by decide)).2.2.1⟩

/-! ## Shape of the file -/

/-- C5: apart from comments and blank lines the file is its `#include`
directives followed by the two constant definitions `BINDINGS_GFP_KERNEL` and
`BINDINGS___GFP_ZERO`: every item is an include or an object definition, there
are exactly two object definitions, no preprocessor line other than
`#include` (so no define), and no other declaration (no function, no type). -/
theorem only_includes_and_two_consts :
    content (parseUnit source)
        = (includesOf (parseUnit source)).map Item.includeDir ++
          [.objectDef true "gfp_t" "BINDINGS_GFP_KERNEL" "GFP_KERNEL",
           .objectDef true "gfp_t" "BINDINGS___GFP_ZERO" "__GFP_ZERO"] ∧
      (content (parseUnit source)).all (fun it => it.isInclude || it.isObjectDef) = true ∧
      (objectDefs (parseUnit source)).length = 2 ∧
      (objectDefs (parseUnit source)).map (fun d => d.2.2.1)
        = ["BINDINGS_GFP_KERNEL", "BINDINGS___GFP_ZERO"] ∧
      (∀ t, Item.directive t ∉ parseUnit source) ∧
      (∀ t, Item.other t ∉ parseUnit source) := by
  rw [parseUnit_source]
  refine ⟨by decide, by decide, by decide, by decide, ?_, ?_⟩
  · intro t h
    simp [bindings_helper] at h
  · intro t h
    simp [bindings_helper] at h

/-- C6: the include list names `linux/cdev.h`, `linux/clk.h`, `linux/fs.h`,
`linux/blkdev.h`, `linux/interrupt.h`, `linux/gpio/driver.h` and
`uapi/linux/android/binder.h`. -/
theorem named_subsystems_included :
    "linux/cdev.h" ∈ includesOf (parseUnit source) ∧
      "linux/clk.h" ∈ includesOf (parseUnit source) ∧
      "linux/fs.h" ∈ includesOf (parseUnit source) ∧
      "linux/blkdev.h" ∈ includesOf (parseUnit source) ∧
      "linux/interrupt.h" ∈ includesOf (parseUnit source) ∧
      "linux/gpio/driver.h" ∈ includesOf (parseUnit source) ∧
      "uapi/linux/android/binder.h" ∈ includesOf (parseUnit source) := by
  rw [parseUnit_source]
  decide

/-- C7: wherever the file is split at a constant definition, the part before
it already holds every `#include` of the file (so no include follows a
constant definition), both constant definitions are items of the file, and the
include list has no header twice. -/
theorem includes_precede_consts_and_nodup :
    (∀ (pre : List Item) (it : Item) (post : List Item),
        parseUnit source = pre ++ it :: post → it.isObjectDef = true →
          includesOf pre = includesOf (parseUnit source)) ∧
      (objectDefs (parseUnit source)).length = 2 ∧
      (includesOf (parseUnit source)).Nodup := by
  rw [parseUnit_source]
  refine ⟨?_, by decide, by decide⟩
  exact includesOf_of_includesFirst bindings_helper (by decide)

end BindingsHelper
